import Mathlib

/-!
Verification development for the FusionDNS override resolver
(src/main.rs).  The Rust program is shallowly embedded: the cache, the
MySQL-backed override store and the two resolution functions
(handle_query_recursive and handle_query) become executable Lean
definitions, and the loop body of run_proxy becomes a step function.
External crates are modelled at their interface boundary: trust_dns
name parsing and message decoding, the serde_json text layer, and the
socket calls.  The recursion of handle_query_recursive is made total
with an explicit fuel parameter; a fuel-exhausted run (result none) is
the embedding's marker for a recursion the Rust original would keep
unfolding.
-/

namespace FusionDNS

/-- Record type of a DNS question as the Rust code distinguishes it:
RecordType::A, RecordType::CNAME, and everything else. -/
inductive QType where
  | A
  | CNAME
  | other
deriving DecidableEq

/-- Wire query as consumed by the resolver: a trust_dns Query, with the
name kept in its Display form (the string query.name().to_string()). -/
structure DnsQuery where
  name : String
  qtype : QType
deriving DecidableEq

/-- Cache entry: struct DnsRecord from src/main.rs. -/
structure DnsRecord where
  record_type : String
  value : String
  ttl : Nat
deriving DecidableEq

/-- In-memory cache: struct Cache, whose HashMap<String, DnsRecord> is
modelled as an association list; the first binding for a key is its
value. -/
structure Cache where
  records : List (String × DnsRecord)
deriving DecidableEq

/-- Cache::get: a clone of the record stored under the key. -/
def Cache.get (c : Cache) (key : String) : Option DnsRecord :=
  (c.records.find? (fun p => p.1 == key)).map (fun p => p.2)

/-- Cache::insert: HashMap upsert, modelled by prepending the new
binding and dropping any previous binding for the key. -/
def Cache.insert (c : Cache) (key : String) (r : DnsRecord) : Cache :=
  ⟨(key, r) :: c.records.filter (fun p => p.1 != key)⟩

/-- Cache::remove: drop the binding for the key; a no-op when the key
is absent. -/
def Cache.remove (c : Cache) (key : String) : Cache :=
  ⟨c.records.filter (fun p => p.1 != key)⟩

/-- Ipv4 address: the four dotted-quad octets of std::net::Ipv4Addr. -/
structure Ipv4 where
  o1 : Nat
  o2 : Nat
  o3 : Nat
  o4 : Nat
deriving DecidableEq

/-- Answer-record payload as the resolver builds it: RData::A(A(addr))
or RData::CNAME(CNAME(name)). -/
inductive RData where
  | a (addr : Ipv4)
  | cname (target : String)
deriving DecidableEq

/-- Answer record: a trust_dns Record as built by Record::from_rdata,
with the owner name kept in Display form. -/
structure Record where
  name : String
  ttl : Nat
  rdata : RData
deriving DecidableEq

/-- Octet of a dotted-quad literal, following Rust's u8 decimal parser:
one to three digits, no redundant leading zero, value at most 255. -/
def parseOctet (l : List Char) : Option Nat :=
  if l = [] then none
  else if l.length > 3 then none
  else if ¬ l.all Char.isDigit then none
  else if l.head? = some '0' ∧ l ≠ ['0'] then none
  else
    let v := l.foldl (fun acc ch => acc * 10 + (ch.toNat - 48)) 0
    if v ≤ 255 then some v else none

/-- Split a character list on '.' separators, keeping empty chunks. -/
def splitDots : List Char → List (List Char)
  | [] => [[]]
  | ch :: rest =>
    let r := splitDots rest
    if ch = '.' then [] :: r
    else
      match r with
      | [] => [[ch]]
      | chunk :: more => (ch :: chunk) :: more

/-- Ipv4 literal parser, modelling value.parse::<std::net::Ipv4Addr>()
on a record value. -/
def parseIpv4 (s : String) : Option Ipv4 :=
  match (splitDots s.toList).mapM parseOctet with
  | some [x1, x2, x3, x4] => some ⟨x1, x2, x3, x4⟩
  | _ => none

/-- Modelled at the trust_dns boundary: Name::parse on a record value,
rendered back through Display.  The model keeps the string itself and
fails exactly on the empty string; the resolver only ever inspects the
rendered form of the parsed name. -/
def nameParse (s : String) : Option String :=
  if s = "" then none else some s

/-- Expression query.name().to_string().trim_end_matches('.') from
lines 89 and 182 of src/main.rs: every trailing '.' is removed and
nothing else changes — in particular letter case is kept. -/
def trimEndDot (s : String) : String :=
  ⟨(s.toList.reverse.dropWhile (fun ch => ch = '.')).reverse⟩

/-- Normalization as the specification words it (lowercased, trailing
root-label separator stripped), stated only to be compared with the
code's trimEndDot. -/
def specNormalizedName (s : String) : String :=
  trimEndDot ⟨s.toList.map Char.toLower⟩

/-- Row of the override table consumed by the configured SQL statement:
the address key column, the record type and the value. -/
structure StoreRow where
  address : String
  rtype : String
  value : String
deriving DecidableEq

/-- Reachability of the MySQL backend: pool.get_conn() and
conn.exec_first(..) can each fail; both failures are observed by the
resolver before any row is produced. -/
inductive DbConn where
  | ok
  | connFail
  | queryFail
deriving DecidableEq

/-- Backing store as seen through mysql_async: reachability plus the
table rows. -/
structure DbState where
  conn : DbConn
  rows : List StoreRow
deriving DecidableEq

/-- Result row of conn.exec_first for the parameterized lookup: the
first row whose address column equals the normalized name exactly. -/
def storeLookup (db : DbState) (qname : String) : Option (String × String) :=
  (db.rows.find? (fun r => r.address == qname)).map (fun r => (r.rtype, r.value))

/-- JSON documents at the serde_json boundary: the snapshot file is
modelled by the document serde_json renders and parses; the textual
layer itself belongs to the external crate. -/
inductive Json where
  | str (s : String)
  | num (n : Nat)
  | obj (fields : List (String × Json))

/-- Derived Serialize for DnsRecord: its three fields in declaration
order. -/
def DnsRecord.toJson (r : DnsRecord) : Json :=
  Json.obj [("record_type", Json.str r.record_type),
            ("value", Json.str r.value),
            ("ttl", Json.num r.ttl)]

/-- Derived Serialize for Cache: the single records field holding the
name-to-record object. -/
def Cache.toJson (c : Cache) : Json :=
  Json.obj [("records", Json.obj (c.records.map (fun p => (p.1, p.2.toJson))))]

/-- Field lookup inside a JSON object. -/
def jsonField (fields : List (String × Json)) (key : String) : Option Json :=
  (fields.find? (fun p => p.1 == key)).map (fun p => p.2)

/-- Derived Deserialize for DnsRecord. -/
def DnsRecord.fromJson : Json → Option DnsRecord
  | Json.obj fields =>
    match jsonField fields "record_type", jsonField fields "value", jsonField fields "ttl" with
    | some (Json.str t), some (Json.str v), some (Json.num n) => some ⟨t, v, n⟩
    | _, _, _ => none
  | _ => none

/-- Deserialize the records object entry by entry, in order. -/
def recordsFromJson : List (String × Json) → Option (List (String × DnsRecord))
  | [] => some []
  | (k, j) :: rest =>
    match DnsRecord.fromJson j, recordsFromJson rest with
    | some r, some tail => some ((k, r) :: tail)
    | _, _ => none

/-- Derived Deserialize for Cache. -/
def Cache.fromJson : Json → Option Cache
  | Json.obj fields =>
    match jsonField fields "records" with
    | some (Json.obj entries) => (recordsFromJson entries).map (fun l => ⟨l⟩)
    | _ => none
  | _ => none

/-- Cache::save: the snapshot document serde_json renders and fs::write
stores.  A write failure is swallowed by the Rust code; the model keeps
the successfully written document. -/
def Cache.save (c : Cache) : Json := c.toJson

/-- Cache::load: a missing or unparsable snapshot file yields the empty
cache instead of a startup failure. -/
def Cache.load (file : Option Json) : Cache :=
  match file with
  | some j => (Cache.fromJson j).getD ⟨[]⟩
  | none => ⟨[]⟩

/-- Mutable state threaded through a resolution: the in-memory cache,
the snapshot file content, and a count of the cache.save(cache_file)
calls performed. -/
structure ResolverState where
  cache : Cache
  file : Option Json
  saves : Nat

/-- Effect of cache.save(cache_file): the current mapping is written to
the snapshot file and the save counter advances. -/
def persistCache (st : ResolverState) : ResolverState :=
  { st with file := some st.cache.save, saves := st.saves + 1 }

/-- Body of handle_query_recursive from src/main.rs, made total with a
fuel parameter that bounds the alias-hop recursion depth; a none result
marks fuel exhaustion, the embedding's stand-in for unbounded
recursion.  A cached CNAME is followed only when the requested type is
CNAME, while a CNAME freshly read from the store is followed whatever
the requested type; a store miss evicts the name and persists. -/
def handleQueryRecursive (db : DbState) : Nat → DnsQuery → ResolverState →
    Option (List Record × ResolverState)
  | 0, _, _ => none
  | fuel + 1, q, st =>
    let qname := trimEndDot q.name
    match st.cache.get qname with
    | some cached =>
      if cached.record_type = "A" ∧ q.qtype = QType.A then
        match parseIpv4 cached.value with
        | some addr => some ([⟨q.name, cached.ttl, RData.a addr⟩], st)
        | none => some ([], st)
      else if cached.record_type = "CNAME" ∧ q.qtype = QType.CNAME then
        match nameParse cached.value with
        | some cname =>
          match handleQueryRecursive db fuel ⟨cname, QType.A⟩ st with
          | some (sub, st') => some (⟨q.name, cached.ttl, RData.cname cname⟩ :: sub, st')
          | none => none
        | none => some ([], st)
      else some ([], st)
    | none =>
      match db.conn with
      | DbConn.connFail => some ([], st)
      | DbConn.queryFail => some ([], st)
      | DbConn.ok =>
        match storeLookup db qname with
        | some (rtype, value) =>
          let st1 := persistCache { st with cache := st.cache.insert qname ⟨rtype, value, 3600⟩ }
          if rtype = "A" ∧ q.qtype = QType.A then
            match parseIpv4 value with
            | some addr => some ([⟨q.name, 3600, RData.a addr⟩], st1)
            | none => some ([], st1)
          else if rtype = "CNAME" then
            match nameParse value with
            | some cname =>
              match handleQueryRecursive db fuel ⟨cname, QType.A⟩ st1 with
              | some (sub, st') => some (⟨q.name, 3600, RData.cname cname⟩ :: sub, st')
              | none => none
            | none => some ([], st1)
          else some ([], st1)
        | none =>
          some ([], persistCache { st with cache := st.cache.remove qname })

/-- Body of handle_query from src/main.rs.  The function itself never
recurses; the fuel is handed to the handle_query_recursive calls made
for alias targets.  Differences from the recursive body, kept from the
source: a cached CNAME is followed whatever the requested type, and a
store miss neither evicts the name nor persists the snapshot. -/
def handleQuery (db : DbState) (fuel : Nat) (q : DnsQuery) (st : ResolverState) :
    Option (List Record × ResolverState) :=
  let qname := trimEndDot q.name
  match st.cache.get qname with
  | some cached =>
    if cached.record_type = "A" ∧ q.qtype = QType.A then
      match parseIpv4 cached.value with
      | some addr => some ([⟨q.name, cached.ttl, RData.a addr⟩], st)
      | none => some ([], st)
    else if cached.record_type = "CNAME" then
      match nameParse cached.value with
      | some cname =>
        match handleQueryRecursive db fuel ⟨cname, QType.A⟩ st with
        | some (sub, st') => some (⟨q.name, cached.ttl, RData.cname cname⟩ :: sub, st')
        | none => none
      | none => some ([], st)
    else some ([], st)
  | none =>
    match db.conn with
    | DbConn.connFail => some ([], st)
    | DbConn.queryFail => some ([], st)
    | DbConn.ok =>
      match storeLookup db qname with
      | some (rtype, value) =>
        let st1 := persistCache { st with cache := st.cache.insert qname ⟨rtype, value, 3600⟩ }
        if rtype = "A" ∧ q.qtype = QType.A then
          match parseIpv4 value with
          | some addr => some ([⟨q.name, 3600, RData.a addr⟩], st1)
          | none => some ([], st1)
        else if rtype = "CNAME" then
          match nameParse value with
          | some cname =>
            match handleQueryRecursive db fuel ⟨cname, QType.A⟩ st1 with
            | some (sub, st') => some (⟨q.name, 3600, RData.cname cname⟩ :: sub, st')
            | none => none
          | none => some ([], st1)
        else some ([], st1)
      | none => some ([], st)

/-- Decoded inbound message: transaction id and question section, the
parts of a trust_dns Message the dispatcher reads. -/
structure Message where
  id : Nat
  queries : List DnsQuery

/-- Outcome sent by the dispatcher for one inbound datagram: either the
locally built response, or the original bytes forwarded upstream with
the upstream reply relayed back verbatim. -/
inductive SentResponse where
  | localResponse (id : Nat) (answers : List Record)
  | forwardedUpstream (sentBytes : List Nat) (relayedReply : List Nat)

/-- Failures the loop body of run_proxy escalates with the
question-mark operator; any of them ends run_proxy itself, and with it
the dispatch loop. -/
inductive DispatchError where
  | decodeFailure
deriving DecidableEq

/-- Question loop of run_proxy: resolve each query in order, collecting
the answers and the handled flag while threading the cache state. -/
def processQueries (db : DbState) (fuel : Nat) :
    List DnsQuery → ResolverState → Option (List Record × Bool × ResolverState)
  | [], st => some ([], false, st)
  | q :: rest, st =>
    match handleQuery db fuel q st with
    | none => none
    | some (recs, st') =>
      match processQueries db fuel rest st' with
      | none => none
      | some (acc, handled, st'') => some (recs ++ acc, (!recs.isEmpty || handled), st'')

/-- Loop body of run_proxy for one received datagram.  The decoded
argument stands for the result of Message::from_vec (the trust_dns
codec is external); none means the bytes fail to decode, and the Rust
code propagates that failure out of run_proxy.  The outer Option is
the fuel artifact of the embedding; the Except layer carries the
escalated failures that terminate the dispatch loop. -/
def runProxyStep (db : DbState) (fuel : Nat) (raw : List Nat)
    (decoded : Option Message) (upstream : List Nat → List Nat)
    (st : ResolverState) :
    Option (Except DispatchError (SentResponse × ResolverState)) :=
  match decoded with
  | none => some (Except.error DispatchError.decodeFailure)
  | some msg =>
    match processQueries db fuel msg.queries st with
    | none => none
    | some (answers, handled, st') =>
      if handled then
        some (Except.ok (SentResponse.localResponse msg.id answers, st'))
      else
        some (Except.ok (SentResponse.forwardedUpstream raw (upstream raw), st'))

/-! Helper lemmas about the cache as a finite map. -/

/-- Insertion stores the record under its key. -/
theorem Cache.get_insert_self (c : Cache) (k : String) (r : DnsRecord) :
    (c.insert k r).get k = some r := by
  simp [Cache.get, Cache.insert]

/-- Insertion leaves every other key unchanged. -/
theorem Cache.get_insert_ne (c : Cache) (k k' : String) (r : DnsRecord)
    (h : k ≠ k') : (c.insert k r).get k' = c.get k' := by
  simp only [Cache.get, Cache.insert, List.find?_cons]
  have hk : ((k, r).1 == k') = false := by
    simp only [beq_eq_false_iff_ne, ne_eq]
    exact h
  rw [hk]
  simp only [List.find?_filter]
  have hfun : (fun p : String × DnsRecord => (p.1 != k ∧ p.1 == k' : Bool)) =
      (fun p : String × DnsRecord => p.1 == k') := by
    funext p
    by_cases hp : p.1 = k'
    · simp [hp, h.symm]
    · simp [hp]
  rw [hfun]

/-- Key set of the cache mapping. -/
def cacheKeys (c : Cache) : Finset String := (c.records.map Prod.fst).toFinset

/-- A failed lookup means the key is outside the key set. -/
theorem not_mem_cacheKeys_of_get_eq_none {c : Cache} {k : String}
    (h : c.get k = none) : k ∉ cacheKeys c := by
  simp only [Cache.get, Option.map_eq_none', List.find?_eq_none] at h
  simp only [cacheKeys, List.mem_toFinset, List.mem_map]
  rintro ⟨p, hp, hk⟩
  exact h p hp (by simp [hk])

/-- A successful lookup means the key is in the key set. -/
theorem mem_cacheKeys_of_get_eq_some {c : Cache} {k : String} {r : DnsRecord}
    (h : c.get k = some r) : k ∈ cacheKeys c := by
  simp only [Cache.get, Option.map_eq_some'] at h
  obtain ⟨p, hfind, _⟩ := h
  have hmem := List.mem_of_find?_eq_some hfind
  have hp := List.find?_some hfind
  simp only [beq_iff_eq] at hp
  simp only [cacheKeys, List.mem_toFinset, List.mem_map]
  exact ⟨p, hmem, hp⟩

/-- A key inside the key set can be looked up. -/
theorem get_isSome_of_mem_cacheKeys {c : Cache} {k : String}
    (h : k ∈ cacheKeys c) : ∃ r, c.get k = some r := by
  simp only [cacheKeys, List.mem_toFinset, List.mem_map] at h
  obtain ⟨p, hp, hk⟩ := h
  have : (c.records.find? (fun q => q.1 == k)).isSome := by
    rw [List.find?_isSome]
    exact ⟨p, hp, by simp [hk]⟩
  obtain ⟨q, hq⟩ := Option.isSome_iff_exists.mp this
  exact ⟨q.2, by simp [Cache.get, hq]⟩

/-- Insertion adds exactly the inserted key to the key set. -/
theorem cacheKeys_insert (c : Cache) (k : String) (r : DnsRecord) :
    cacheKeys (c.insert k r) = insert k (cacheKeys c) := by
  ext x
  simp only [cacheKeys, Cache.insert, List.map_cons, List.mem_toFinset,
    List.mem_map, Finset.mem_insert, List.mem_cons, List.mem_filter,
    bne_iff_ne, ne_eq]
  constructor
  · rintro (rfl | ⟨p, ⟨hp, _⟩, hx⟩)
    · exact Or.inl rfl
    · exact Or.inr ⟨p, hp, hx⟩
  · rintro (rfl | ⟨p, hp, hx⟩)
    · exact Or.inl rfl
    · rcases eq_or_ne p.1 k with hpk | hpk
      · exact Or.inl (hx.symm.trans hpk)
      · exact Or.inr ⟨p, ⟨hp, hpk⟩, hx⟩

/-- Normalized alias targets offered by the store: every name a CNAME
row can send the resolver to. -/
def storeAliasTargets (db : DbState) : Finset String :=
  (db.rows.filterMap (fun r =>
    if r.rtype = "CNAME" then (nameParse r.value).map trimEndDot else none)).toFinset

/-- The normalized target of a CNAME row found by the store lookup is
an alias target of the store. -/
theorem mem_storeAliasTargets {db : DbState} {qn v nm : String}
    (hrow : storeLookup db qn = some ("CNAME", v))
    (hnm : nameParse v = some nm) :
    trimEndDot nm ∈ storeAliasTargets db := by
  simp only [storeLookup, Option.map_eq_some'] at hrow
  obtain ⟨r, hfind, heq⟩ := hrow
  have hmem := List.mem_of_find?_eq_some hfind
  have ht : r.rtype = "CNAME" := congrArg Prod.fst heq
  have hv : r.value = v := congrArg Prod.snd heq
  simp only [storeAliasTargets, List.mem_toFinset, List.mem_filterMap]
  exact ⟨r, hmem, by rw [ht, hv, if_pos rfl, hnm]; rfl⟩

/-! Claims C1, C2 and C5: behavior of the two resolvers at the store
boundary (not-found, type-mismatched cache hits, unreachable store). -/

/-- Claim C1 counterexample: with an empty cache and a reachable store
holding no rows, handle_query emits an empty answer for the query but
comes back with the resolver state untouched — the snapshot file is
still unwritten and the save counter still zero, so no cache removal
and no persist happened, contradicting the claim for top-level
resolutions. -/
theorem c1_counterexample :
    handleQuery ⟨DbConn.ok, []⟩ 3 ⟨"gone.test", QType.A⟩ ⟨⟨[]⟩, none, 0⟩ =
      some ([], ⟨⟨[]⟩, none, 0⟩) := rfl

/-- Removing a key that a lookup just missed never changes the
mapping. -/
theorem cache_remove_of_get_none {c : Cache} {k : String} (h : c.get k = none) :
    c.remove k = c := by
  simp only [Cache.get, Option.map_eq_none', List.find?_eq_none] at h
  cases c with
  | mk rs =>
    simp only [Cache.remove, Cache.mk.injEq]
    apply List.filter_eq_self.mpr
    intro p hp
    simpa using h p hp

/-- Claim C1 (amended): when the store lookup succeeds but yields no
row for a name that was not in the cache, handle_query_recursive
removes the normalized name from the cache, persists the snapshot and
emits nothing — but handle_query only emits nothing, leaving the cache,
the snapshot file and the save counter untouched.  Because both
resolvers consult the store only after a cache miss, the removal never
changes the mapping: the recursive resolver just rewrites an unchanged
snapshot. -/
theorem c1_notfound_behavior (db : DbState) (fuel : Nat) (q : DnsQuery)
    (st : ResolverState)
    (hmiss : st.cache.get (trimEndDot q.name) = none)
    (hconn : db.conn = DbConn.ok)
    (hrow : storeLookup db (trimEndDot q.name) = none) :
    handleQueryRecursive db (fuel + 1) q st =
      some ([], persistCache { st with cache := st.cache.remove (trimEndDot q.name) }) ∧
    st.cache.remove (trimEndDot q.name) = st.cache ∧
    handleQuery db fuel q st = some ([], st) := by
  refine ⟨?_, cache_remove_of_get_none hmiss, ?_⟩
  · simp only [handleQueryRecursive, hmiss, hconn, hrow]
  · simp only [handleQuery, hmiss, hconn, hrow]

/-- Witness for the amended claim C1 at a concrete state. -/
theorem c1_witness :
    handleQueryRecursive ⟨DbConn.ok, []⟩ 3 ⟨"stale.test", QType.A⟩ ⟨⟨[]⟩, none, 0⟩ =
      some ([], persistCache { (⟨⟨[]⟩, none, 0⟩ : ResolverState) with
        cache := Cache.remove ⟨[]⟩ (trimEndDot "stale.test") }) ∧
    Cache.remove (⟨[]⟩ : Cache) (trimEndDot "stale.test") = (⟨[]⟩ : Cache) ∧
    handleQuery ⟨DbConn.ok, []⟩ 2 ⟨"stale.test", QType.A⟩ ⟨⟨[]⟩, none, 0⟩ =
      some ([], ⟨⟨[]⟩, none, 0⟩) :=
  c1_notfound_behavior ⟨DbConn.ok, []⟩ 2 ⟨"stale.test", QType.A⟩ ⟨⟨[]⟩, none, 0⟩ rfl rfl rfl

/-- Claim C2 counterexample: with name x cached as an ADDRESS record
and the reachable store holding a CNAME row for x and an address row
for its target, a CNAME request for x returns an empty answer with the
resolver state untouched, while the same request from a cold cache
reaches the store, emits two records and persists twice.  The
type-mismatched hit is therefore not treated like a cache miss. -/
theorem c2_counterexample :
    handleQuery ⟨DbConn.ok, [⟨"x", "CNAME", "y"⟩, ⟨"y", "A", "9.9.9.9"⟩]⟩ 3
        ⟨"x", QType.CNAME⟩ ⟨⟨[("x", ⟨"A", "1.2.3.4", 60⟩)]⟩, none, 0⟩ =
      some ([], ⟨⟨[("x", ⟨"A", "1.2.3.4", 60⟩)]⟩, none, 0⟩) ∧
    (handleQuery ⟨DbConn.ok, [⟨"x", "CNAME", "y"⟩, ⟨"y", "A", "9.9.9.9"⟩]⟩ 3
        ⟨"x", QType.CNAME⟩ ⟨⟨[]⟩, none, 0⟩).map (fun r => (r.1.length, r.2.saves)) =
      some (2, 2) := ⟨rfl, rfl⟩

/-- Claim C2 (amended): a cache hit whose record type does not pair
with the requested type makes the resolution return an empty record
sequence at once, with the resolver state untouched and the store never
contacted — an authoritative negative answer rather than a fall-through
to the store.  For handle_query the mismatches are the hits that are
neither an ADDRESS hit paired with an ADDRESS request nor a CNAME hit;
for handle_query_recursive, also a CNAME hit with a non-CNAME
request. -/
theorem c2_mismatch_hit (db : DbState) (fuel : Nat) (q : DnsQuery)
    (st : ResolverState) (cached : DnsRecord)
    (hhit : st.cache.get (trimEndDot q.name) = some cached) :
    (¬ (cached.record_type = "A" ∧ q.qtype = QType.A) →
      cached.record_type ≠ "CNAME" →
      handleQuery db fuel q st = some ([], st)) ∧
    (¬ (cached.record_type = "A" ∧ q.qtype = QType.A) →
      ¬ (cached.record_type = "CNAME" ∧ q.qtype = QType.CNAME) →
      handleQueryRecursive db (fuel + 1) q st = some ([], st)) := by
  constructor
  · intro h1 h2
    simp only [handleQuery, hhit, if_neg h1, if_neg h2]
  · intro h1 h2
    simp only [handleQueryRecursive, hhit, if_neg h1, if_neg h2]

/-- Witness for the amended claim C2: a cached ADDRESS record answered
to an ALIAS request, in both resolvers. -/
theorem c2_witness :
    handleQuery ⟨DbConn.ok, []⟩ 1 ⟨"x", QType.CNAME⟩
        ⟨⟨[("x", ⟨"A", "1.2.3.4", 60⟩)]⟩, none, 0⟩ =
      some ([], ⟨⟨[("x", ⟨"A", "1.2.3.4", 60⟩)]⟩, none, 0⟩) ∧
    handleQueryRecursive ⟨DbConn.ok, []⟩ 2 ⟨"x", QType.CNAME⟩
        ⟨⟨[("x", ⟨"A", "1.2.3.4", 60⟩)]⟩, none, 0⟩ =
      some ([], ⟨⟨[("x", ⟨"A", "1.2.3.4", 60⟩)]⟩, none, 0⟩) := by
  have h := c2_mismatch_hit ⟨DbConn.ok, []⟩ 1 ⟨"x", QType.CNAME⟩
    ⟨⟨[("x", ⟨"A", "1.2.3.4", 60⟩)]⟩, none, 0⟩ ⟨"A", "1.2.3.4", 60⟩ rfl
  exact ⟨h.1 (by simp) (by simp), h.2 (by simp) (by simp)⟩

/-- Claim C5: when the store is unreachable — the connection cannot be
obtained, or the query itself fails — a resolution that consults the
store (one whose name missed the cache) emits an empty record sequence
and leaves the cache mapping, the snapshot file and the save counter
untouched; in particular no cache entry is evicted. -/
theorem c5_unreachable_preserves_state (db : DbState) (fuel : Nat) (q : DnsQuery)
    (st : ResolverState)
    (hmiss : st.cache.get (trimEndDot q.name) = none)
    (hdown : db.conn = DbConn.connFail ∨ db.conn = DbConn.queryFail) :
    handleQueryRecursive db (fuel + 1) q st = some ([], st) ∧
    handleQuery db fuel q st = some ([], st) := by
  rcases hdown with h | h
  · exact ⟨by simp only [handleQueryRecursive, hmiss, h],
      by simp only [handleQuery, hmiss, h]⟩
  · exact ⟨by simp only [handleQueryRecursive, hmiss, h],
      by simp only [handleQuery, hmiss, h]⟩

/-- Witness for claim C5: a state whose cache holds an entry for
another name survives an unreachable-store resolution unchanged. -/
theorem c5_witness :
    handleQueryRecursive ⟨DbConn.connFail, [⟨"x", "A", "5.6.7.8"⟩]⟩ 4 ⟨"x", QType.A⟩
        ⟨⟨[("kept.test", ⟨"A", "1.2.3.4", 60⟩)]⟩, none, 0⟩ =
      some ([], ⟨⟨[("kept.test", ⟨"A", "1.2.3.4", 60⟩)]⟩, none, 0⟩) ∧
    handleQuery ⟨DbConn.connFail, [⟨"x", "A", "5.6.7.8"⟩]⟩ 3 ⟨"x", QType.A⟩
        ⟨⟨[("kept.test", ⟨"A", "1.2.3.4", 60⟩)]⟩, none, 0⟩ =
      some ([], ⟨⟨[("kept.test", ⟨"A", "1.2.3.4", 60⟩)]⟩, none, 0⟩) :=
  c5_unreachable_preserves_state ⟨DbConn.connFail, [⟨"x", "A", "5.6.7.8"⟩]⟩ 3
    ⟨"x", QType.A⟩ ⟨⟨[("kept.test", ⟨"A", "1.2.3.4", 60⟩)]⟩, none, 0⟩ rfl (Or.inl rfl)

/-! Claim C9: query-name normalization. -/

/-- Claim C9 counterexample: the code's normalization of the query name
A. is A — not the a that the lowercase-and-strip normalization of the
claim produces — and the two names A.test and a.test, which differ only
in letter case, do not share a cache key. -/
theorem c9_counterexample :
    trimEndDot "A." ≠ specNormalizedName "A." ∧
    trimEndDot "A.test" ≠ trimEndDot "a.test" := by
  exact ⟨by decide, by decide⟩

/-- Claim C9 (amended): the normalized name used as the cache key and
store parameter is the query name with every trailing root-label
separator stripped and nothing else changed; letter case is preserved,
so query names differing only in case normalize to different keys, as
witnessed on a concrete pair. -/
theorem c9_normalization :
    (∀ s : String, trimEndDot (s ++ ".") = trimEndDot s) ∧
    trimEndDot "A.ExAmple.COM." = "A.ExAmple.COM" ∧
    trimEndDot "A.test" ≠ trimEndDot "a.test" := by
  refine ⟨?_, by decide, by decide⟩
  intro s
  simp only [trimEndDot]
  congr 1
  have h1 : (s ++ ".").toList = s.toList ++ ['.'] := rfl
  rw [h1, List.reverse_append]
  simp [List.dropWhile]

/-! Claim C3: decode failures terminate the dispatch loop. -/

/-- Claim C3 evaluated at the failing input: an inbound datagram whose
bytes do not decode as a DNS message is not discarded — the decode
failure of Message::from_vec is escalated with the question-mark
operator, which ends run_proxy and with it the whole dispatch loop,
whatever the resolver state, the store state and the upstream are. -/
theorem c3_decode_failure_terminates (db : DbState) (fuel : Nat) (raw : List Nat)
    (upstream : List Nat → List Nat) (st : ResolverState) :
    runProxyStep db fuel raw none upstream st =
      some (Except.error DispatchError.decodeFailure) := rfl

/-! Claim C8: snapshot save and load round-trip. -/

/-- Record serialization round-trips through its JSON document. -/
theorem recordFromJson_toJson (r : DnsRecord) :
    DnsRecord.fromJson r.toJson = some r := by
  cases r
  rfl

/-- Entry-list serialization round-trips entry by entry. -/
theorem recordsFromJson_map (l : List (String × DnsRecord)) :
    recordsFromJson (l.map (fun p => (p.1, p.2.toJson))) = some l := by
  induction l with
  | nil => rfl
  | cons p rest ih =>
    obtain ⟨k, r⟩ := p
    simp only [List.map_cons, recordsFromJson, recordFromJson_toJson, ih]

/-- Claim C8: serializing a cache mapping with the snapshot save
operation and loading the written snapshot yields a mapping identical
to the original. -/
theorem c8_save_load_roundtrip (c : Cache) :
    Cache.load (some (Cache.save c)) = c := by
  obtain ⟨rs⟩ := c
  have h : Cache.fromJson (Cache.save ⟨rs⟩) = some ⟨rs⟩ := by
    show (recordsFromJson (rs.map (fun p => (p.1, p.2.toJson)))).map
      (fun l => (⟨l⟩ : Cache)) = some ⟨rs⟩
    rw [recordsFromJson_map]
    rfl
  simp [Cache.load, h]

/-! Claim C7: the forward-or-answer decision of the dispatcher. -/

/-- Handled flag of the question loop: it is set exactly when the
collected answer sequence is non-empty. -/
theorem processQueries_handled_iff (db : DbState) (fuel : Nat) :
    ∀ (qs : List DnsQuery) (st : ResolverState) (ans : List Record) (hb : Bool)
      (st' : ResolverState),
    processQueries db fuel qs st = some (ans, hb, st') → (hb = true ↔ ans ≠ []) := by
  intro qs
  induction qs with
  | nil =>
    intro st ans hb st' he
    simp only [processQueries, Option.some.injEq, Prod.mk.injEq] at he
    obtain ⟨h1, h2, _⟩ := he
    subst h1
    subst h2
    simp
  | cons q rest ih =>
    intro st ans hb st' he
    simp only [processQueries] at he
    split at he
    · exact absurd he (by simp)
    · rename_i recs st1 hq
      split at he
      · exact absurd he (by simp)
      · rename_i acc h2 st2 hr
        simp only [Option.some.injEq, Prod.mk.injEq] at he
        obtain ⟨rfl, rfl, rfl⟩ := he
        by_cases hrec : recs = []
        · subst hrec
          simpa using ih st1 acc h2 st2 hr
        · simp [List.isEmpty_iff, List.append_eq_nil, hrec]

/-- Claim C7: for a decodable inbound message, when its questions
produce no records at all the dispatcher forwards the original inbound
bytes verbatim to the upstream resolver and relays the upstream reply
verbatim back to the requester; when the questions produced any record,
it sends only the locally built response, echoing the transaction id,
and never contacts upstream — even if some questions went
unanswered. -/
theorem c7_forwarding_decision (db : DbState) (fuel : Nat) (raw : List Nat)
    (upstream : List Nat → List Nat) (st : ResolverState) (msg : Message)
    (ans : List Record) (handled : Bool) (st' : ResolverState)
    (he : processQueries db fuel msg.queries st = some (ans, handled, st')) :
    (ans = [] →
      runProxyStep db fuel raw (some msg) upstream st =
        some (Except.ok (SentResponse.forwardedUpstream raw (upstream raw), st'))) ∧
    (ans ≠ [] →
      runProxyStep db fuel raw (some msg) upstream st =
        some (Except.ok (SentResponse.localResponse msg.id ans, st'))) := by
  have hiff := processQueries_handled_iff db fuel msg.queries st ans handled st' he
  constructor
  · intro hnil
    have hf : handled = false := by
      cases handled
      · rfl
      · exact absurd (hiff.mp rfl) (by simp [hnil])
    simp only [runProxyStep, he, hf, Bool.false_eq_true, if_false]
  · intro hne
    have ht : handled = true := hiff.mpr hne
    simp only [runProxyStep, he, ht, if_true]

/-- Witness for claim C7: the same one-question message is forwarded
verbatim when the cache is cold and the store down, and answered
locally without upstream contact when the cache holds the address. -/
theorem c7_witness :
    runProxyStep ⟨DbConn.connFail, []⟩ 2 [0, 1, 2] (some ⟨7, [⟨"x", QType.A⟩]⟩)
        (fun b => 9 :: b) ⟨⟨[]⟩, none, 0⟩ =
      some (Except.ok (SentResponse.forwardedUpstream [0, 1, 2] [9, 0, 1, 2],
        ⟨⟨[]⟩, none, 0⟩)) ∧
    runProxyStep ⟨DbConn.connFail, []⟩ 2 [0, 1, 2] (some ⟨7, [⟨"x", QType.A⟩]⟩)
        (fun b => 9 :: b) ⟨⟨[("x", ⟨"A", "1.2.3.4", 60⟩)]⟩, none, 0⟩ =
      some (Except.ok (SentResponse.localResponse 7 [⟨"x", 60, RData.a ⟨1, 2, 3, 4⟩⟩],
        ⟨⟨[("x", ⟨"A", "1.2.3.4", 60⟩)]⟩, none, 0⟩)) := by
  constructor
  · exact (c7_forwarding_decision ⟨DbConn.connFail, []⟩ 2 [0, 1, 2] (fun b => 9 :: b)
      ⟨⟨[]⟩, none, 0⟩ ⟨7, [⟨"x", QType.A⟩]⟩ [] false ⟨⟨[]⟩, none, 0⟩ rfl).1 rfl
  · exact (c7_forwarding_decision ⟨DbConn.connFail, []⟩ 2 [0, 1, 2] (fun b => 9 :: b)
      ⟨⟨[("x", ⟨"A", "1.2.3.4", 60⟩)]⟩, none, 0⟩ ⟨7, [⟨"x", QType.A⟩]⟩
      [⟨"x", 60, RData.a ⟨1, 2, 3, 4⟩⟩] true
      ⟨⟨[("x", ⟨"A", "1.2.3.4", 60⟩)]⟩, none, 0⟩ rfl).2 (by simp)

/-! Claims C6 and C10: alias chasing. -/

/-- Address hop: a name that resolves to the address 1.2.3.4 — from
the cache or from the store — yields exactly one address record under
the ADDRESS sub-query the alias chase issues. -/
theorem resolveAddressHop (db : DbState) (fuel : Nat) (st : ResolverState)
    (b : String) (tb : Nat)
    (hbn : trimEndDot b = b)
    (hB : st.cache.get b = some ⟨"A", "1.2.3.4", tb⟩ ∨
          (st.cache.get b = none ∧ db.conn = DbConn.ok ∧
            storeLookup db b = some ("A", "1.2.3.4"))) :
    ∃ t st', handleQueryRecursive db (fuel + 1) ⟨b, QType.A⟩ st =
      some ([⟨b, t, RData.a ⟨1, 2, 3, 4⟩⟩], st') := by
  have hip : parseIpv4 "1.2.3.4" = some ⟨1, 2, 3, 4⟩ := rfl
  rcases hB with hB | ⟨hB, hc, hrow⟩
  · exact ⟨tb, st, by simp [handleQueryRecursive, hbn, hB, hip]⟩
  · exact ⟨3600,
      persistCache { st with cache := st.cache.insert b ⟨"A", "1.2.3.4", 3600⟩ },
      by simp [handleQueryRecursive, hbn, hB, hc, hrow, hip]⟩

/-- Claim C6: whenever name a resolves to an alias for b — from the
cache or from the store — and b resolves to the address 1.2.3.4 — from
the cache or from the store — resolving a through handle_query for
requested type ADDRESS or ALIAS emits exactly the alias record a to b
followed by the address record b to 1.2.3.4, in that order. -/
theorem c6_alias_chain (db : DbState) (fuel : Nat) (st : ResolverState)
    (a b : String) (ta tb : Nat) (qt : QType)
    (hqt : qt = QType.A ∨ qt = QType.CNAME)
    (hab : trimEndDot a ≠ b)
    (hbn : trimEndDot b = b)
    (hbne : b ≠ "")
    (hA : st.cache.get (trimEndDot a) = some ⟨"CNAME", b, ta⟩ ∨
          (st.cache.get (trimEndDot a) = none ∧ db.conn = DbConn.ok ∧
            storeLookup db (trimEndDot a) = some ("CNAME", b)))
    (hB : st.cache.get b = some ⟨"A", "1.2.3.4", tb⟩ ∨
          (st.cache.get b = none ∧ db.conn = DbConn.ok ∧
            storeLookup db b = some ("A", "1.2.3.4"))) :
    (handleQuery db (fuel + 1) ⟨a, qt⟩ st).map
        (fun r => r.1.map (fun rec => (rec.name, rec.rdata))) =
      some [(a, RData.cname b), (b, RData.a ⟨1, 2, 3, 4⟩)] := by
  have hnp : nameParse b = some b := by simp [nameParse, hbne]
  rcases hA with hA | ⟨hA, hconn, hrow⟩
  · obtain ⟨t, st', hsub⟩ := resolveAddressHop db fuel st b tb hbn hB
    simp [handleQuery, hA, hnp, hsub]
  · have hgb : (persistCache { st with
        cache := st.cache.insert (trimEndDot a) ⟨"CNAME", b, 3600⟩ }).cache.get b =
        st.cache.get b :=
      Cache.get_insert_ne st.cache (trimEndDot a) b ⟨"CNAME", b, 3600⟩ hab
    have hB1 : (persistCache { st with
        cache := st.cache.insert (trimEndDot a) ⟨"CNAME", b, 3600⟩ }).cache.get b =
          some ⟨"A", "1.2.3.4", tb⟩ ∨
        ((persistCache { st with
          cache := st.cache.insert (trimEndDot a) ⟨"CNAME", b, 3600⟩ }).cache.get b = none ∧
          db.conn = DbConn.ok ∧ storeLookup db b = some ("A", "1.2.3.4")) := by
      rcases hB with h | ⟨h, h2, h3⟩
      · exact Or.inl (hgb.trans h)
      · exact Or.inr ⟨hgb.trans h, h2, h3⟩
    obtain ⟨t, st', hsub⟩ := resolveAddressHop db fuel
      (persistCache { st with cache := st.cache.insert (trimEndDot a) ⟨"CNAME", b, 3600⟩ })
      b tb hbn hB1
    simp [handleQuery, hA, hconn, hrow, hnp, hsub]

/-- Witness for claim C6: the fully cached one-hop chain. -/
theorem c6_witness :
    (handleQuery ⟨DbConn.ok, []⟩ 1 ⟨"a.test", QType.A⟩
        ⟨⟨[("a.test", ⟨"CNAME", "b.test", 60⟩), ("b.test", ⟨"A", "1.2.3.4", 70⟩)]⟩,
          none, 0⟩).map
        (fun r => r.1.map (fun rec => (rec.name, rec.rdata))) =
      some [("a.test", RData.cname "b.test"), ("b.test", RData.a ⟨1, 2, 3, 4⟩)] :=
  c6_alias_chain ⟨DbConn.ok, []⟩ 0
    ⟨⟨[("a.test", ⟨"CNAME", "b.test", 60⟩), ("b.test", ⟨"A", "1.2.3.4", 70⟩)]⟩, none, 0⟩
    "a.test" "b.test" 60 70 QType.A (Or.inl rfl) (by decide) rfl (by decide)
    (Or.inl rfl) (Or.inl rfl)

/-- Claim C10: on a cached ALIAS entry queried for ADDRESS, the
resolvers diverge — handle_query_recursive answers nothing, because its
cached-alias branch demands the requested type be ALIAS, while
handle_query emits the alias record and chases its target through the
recursive resolver; so on a fully cached chain of two alias hops the
top-level result truncates to the first alias record, with no terminal
address record, even though the chain's address is cached. -/
theorem c10_cached_alias_divergence (db : DbState) (fuel : Nat) (st : ResolverState)
    (a b c : String) (t1 t2 t3 : Nat) (v : String)
    (hbne : b ≠ "") (hbn : trimEndDot b = b)
    (ha : st.cache.get (trimEndDot a) = some ⟨"CNAME", b, t1⟩)
    (hb : st.cache.get b = some ⟨"CNAME", c, t2⟩)
    (hc : st.cache.get (trimEndDot c) = some ⟨"A", v, t3⟩) :
    handleQueryRecursive db (fuel + 1) ⟨a, QType.A⟩ st = some ([], st) ∧
    handleQueryRecursive db (fuel + 1) ⟨b, QType.A⟩ st = some ([], st) ∧
    handleQuery db (fuel + 1) ⟨a, QType.A⟩ st = some ([⟨a, t1, RData.cname b⟩], st) := by
  have hnp : nameParse b = some b := by simp [nameParse, hbne]
  have h1 : handleQueryRecursive db (fuel + 1) ⟨a, QType.A⟩ st = some ([], st) := by
    simp only [handleQueryRecursive, ha]
    rw [if_neg (by simp), if_neg (by simp)]
  have h2 : handleQueryRecursive db (fuel + 1) ⟨b, QType.A⟩ st = some ([], st) := by
    simp only [handleQueryRecursive, hbn, hb]
    rw [if_neg (by simp), if_neg (by simp)]
  have h3 : handleQuery db (fuel + 1) ⟨a, QType.A⟩ st =
      some ([⟨a, t1, RData.cname b⟩], st) := by
    simp [handleQuery, ha, hnp, h2]
  exact ⟨h1, h2, h3⟩

/-- Witness for claim C10: a fully cached two-hop alias chain whose
terminal address record is also cached. -/
theorem c10_witness :
    handleQueryRecursive ⟨DbConn.ok, []⟩ 5 ⟨"a.test", QType.A⟩
        ⟨⟨[("a.test", ⟨"CNAME", "b.test", 60⟩), ("b.test", ⟨"CNAME", "c.test", 61⟩),
           ("c.test", ⟨"A", "1.2.3.4", 62⟩)]⟩, none, 0⟩ =
      some ([], ⟨⟨[("a.test", ⟨"CNAME", "b.test", 60⟩), ("b.test", ⟨"CNAME", "c.test", 61⟩),
           ("c.test", ⟨"A", "1.2.3.4", 62⟩)]⟩, none, 0⟩) ∧
    handleQueryRecursive ⟨DbConn.ok, []⟩ 5 ⟨"b.test", QType.A⟩
        ⟨⟨[("a.test", ⟨"CNAME", "b.test", 60⟩), ("b.test", ⟨"CNAME", "c.test", 61⟩),
           ("c.test", ⟨"A", "1.2.3.4", 62⟩)]⟩, none, 0⟩ =
      some ([], ⟨⟨[("a.test", ⟨"CNAME", "b.test", 60⟩), ("b.test", ⟨"CNAME", "c.test", 61⟩),
           ("c.test", ⟨"A", "1.2.3.4", 62⟩)]⟩, none, 0⟩) ∧
    handleQuery ⟨DbConn.ok, []⟩ 5 ⟨"a.test", QType.A⟩
        ⟨⟨[("a.test", ⟨"CNAME", "b.test", 60⟩), ("b.test", ⟨"CNAME", "c.test", 61⟩),
           ("c.test", ⟨"A", "1.2.3.4", 62⟩)]⟩, none, 0⟩ =
      some ([⟨"a.test", 60, RData.cname "b.test"⟩],
        ⟨⟨[("a.test", ⟨"CNAME", "b.test", 60⟩), ("b.test", ⟨"CNAME", "c.test", 61⟩),
           ("c.test", ⟨"A", "1.2.3.4", 62⟩)]⟩, none, 0⟩) :=
  c10_cached_alias_divergence ⟨DbConn.ok, []⟩ 4
    ⟨⟨[("a.test", ⟨"CNAME", "b.test", 60⟩), ("b.test", ⟨"CNAME", "c.test", 61⟩),
       ("c.test", ⟨"A", "1.2.3.4", 62⟩)]⟩, none, 0⟩
    "a.test" "b.test" "c.test" 60 61 62 "1.2.3.4" (by decide) rfl rfl rfl rfl

/-! Claim C4: termination of alias-chain resolution. -/

/-- Any ADDRESS query whose normalized name is already cached resolves
within one frame: the cached-alias branch demands an ALIAS request, so
no recursion happens. -/
theorem handleQueryRecursive_hit_isSome (db : DbState) (fuel : Nat) (q : DnsQuery)
    (st : ResolverState) (hq : q.qtype = QType.A)
    (hmem : trimEndDot q.name ∈ cacheKeys st.cache) :
    (handleQueryRecursive db (fuel + 1) q st).isSome = true := by
  obtain ⟨r, hr⟩ := get_isSome_of_mem_cacheKeys hmem
  by_cases h1 : r.record_type = "A" ∧ q.qtype = QType.A
  · obtain ⟨h1a, h1b⟩ := h1
    cases hip : parseIpv4 r.value with
    | none => simp [handleQueryRecursive, hr, h1a, h1b, hip]
    | some addr => simp [handleQueryRecursive, hr, h1a, h1b, hip]
  · have h2 : ¬ (r.record_type = "CNAME" ∧ q.qtype = QType.CNAME) := by
      rintro ⟨-, hcn⟩
      rw [hq] at hcn
      exact QType.noConfusion hcn
    simp [handleQueryRecursive, hr, h1, h2]

/-- Fuel bound for ADDRESS queries: beyond the number of distinct
not-yet-cached store alias targets, fuel is never exhausted, because
every store-driven alias hop write-through-inserts its own normalized
name into the cache before recursing, and a revisited name is a cache
hit that the previous lemma settles in one frame. -/
theorem handleQueryRecursive_A_isSome (db : DbState) :
    ∀ (fuel : Nat) (q : DnsQuery) (st : ResolverState), q.qtype = QType.A →
    ((storeAliasTargets db \ cacheKeys st.cache).erase (trimEndDot q.name)).card + 2 ≤ fuel →
    (handleQueryRecursive db fuel q st).isSome = true := by
  intro fuel
  induction fuel with
  | zero =>
    intro q st _ hcard
    exact absurd hcard (by omega)
  | succ n ih =>
    intro q st hq hcard
    by_cases hmem : trimEndDot q.name ∈ cacheKeys st.cache
    · exact handleQueryRecursive_hit_isSome db n q st hq hmem
    · have hg : st.cache.get (trimEndDot q.name) = none := by
        cases hgg : st.cache.get (trimEndDot q.name) with
        | none => rfl
        | some r => exact absurd (mem_cacheKeys_of_get_eq_some hgg) hmem
      cases hconn : db.conn with
      | connFail => simp [handleQueryRecursive, hg, hconn]
      | queryFail => simp [handleQueryRecursive, hg, hconn]
      | ok =>
        cases hrow : storeLookup db (trimEndDot q.name) with
        | none => simp [handleQueryRecursive, hg, hconn, hrow]
        | some p =>
          obtain ⟨rt, v⟩ := p
          by_cases h1 : rt = "A" ∧ q.qtype = QType.A
          · obtain ⟨h1a, h1b⟩ := h1
            subst h1a
            cases hip : parseIpv4 v with
            | none => simp [handleQueryRecursive, hg, hconn, hrow, h1b, hip]
            | some addr => simp [handleQueryRecursive, hg, hconn, hrow, h1b, hip]
          · by_cases h2 : rt = "CNAME"
            · subst h2
              cases hnm : nameParse v with
              | none => simp [handleQueryRecursive, hg, hconn, hrow, h1, hnm]
              | some cname =>
                have htarget : trimEndDot cname ∈ storeAliasTargets db :=
                  mem_storeAliasTargets hrow hnm
                have hkeys : cacheKeys (persistCache { st with
                    cache := st.cache.insert (trimEndDot q.name) ⟨"CNAME", v, 3600⟩ }).cache =
                    insert (trimEndDot q.name) (cacheKeys st.cache) :=
                  cacheKeys_insert st.cache (trimEndDot q.name) ⟨"CNAME", v, 3600⟩
                have hchild : (handleQueryRecursive db n ⟨cname, QType.A⟩
                    (persistCache { st with
                      cache := st.cache.insert (trimEndDot q.name)
                        ⟨"CNAME", v, 3600⟩ })).isSome = true := by
                  by_cases hc2 : trimEndDot cname ∈
                      insert (trimEndDot q.name) (cacheKeys st.cache)
                  · cases n with
                    | zero => exact absurd hcard (by omega)
                    | succ m =>
                      exact handleQueryRecursive_hit_isSome db m ⟨cname, QType.A⟩ _ rfl
                        (by rw [hkeys]; exact hc2)
                  · apply ih ⟨cname, QType.A⟩ _ rfl
                    dsimp only
                    rw [hkeys, Finset.sdiff_insert]
                    have hc2' : trimEndDot cname ≠ trimEndDot q.name ∧
                        trimEndDot cname ∉ cacheKeys st.cache := by
                      rw [Finset.mem_insert] at hc2
                      push_neg at hc2
                      exact hc2
                    have htA : trimEndDot cname ∈
                        (storeAliasTargets db \ cacheKeys st.cache).erase (trimEndDot q.name) := by
                      rw [Finset.mem_erase, Finset.mem_sdiff]
                      exact ⟨hc2'.1, htarget, hc2'.2⟩
                    have hpos : 0 <
                        ((storeAliasTargets db \ cacheKeys st.cache).erase (trimEndDot q.name)).card :=
                      Finset.card_pos.mpr ⟨trimEndDot cname, htA⟩
                    have hcarderase := Finset.card_erase_of_mem htA
                    omega
                cases hres : handleQueryRecursive db n ⟨cname, QType.A⟩
                    (persistCache { st with
                      cache := st.cache.insert (trimEndDot q.name) ⟨"CNAME", v, 3600⟩ }) with
                | none => rw [hres] at hchild; simp at hchild
                | some pr =>
                  obtain ⟨sub, st2⟩ := pr
                  simp [handleQueryRecursive, hg, hconn, hrow, h1, hnm, hres]
            · simp [handleQueryRecursive, hg, hconn, hrow, h1, h2]

/-- Full termination of handle_query_recursive: fuel beyond the count
of distinct store alias targets always suffices, whatever the query
type, the cache and the store — alias cycles included. -/
theorem handleQueryRecursive_total (db : DbState) (fuel : Nat) (q : DnsQuery)
    (st : ResolverState) (hfuel : (storeAliasTargets db).card + 3 ≤ fuel) :
    (handleQueryRecursive db fuel q st).isSome = true := by
  have hbound : ∀ (q' : DnsQuery) (st' : ResolverState) (m : Nat),
      (storeAliasTargets db).card + 2 ≤ m → q'.qtype = QType.A →
      (handleQueryRecursive db m q' st').isSome = true := by
    intro q' st' m hm hq'
    apply handleQueryRecursive_A_isSome db m q' st' hq'
    have h1 : ((storeAliasTargets db \ cacheKeys st'.cache).erase (trimEndDot q'.name)).card ≤
        (storeAliasTargets db).card :=
      Finset.card_le_card ((Finset.erase_subset _ _).trans Finset.sdiff_subset)
    omega
  obtain ⟨m, rfl⟩ : ∃ m, fuel = m + 1 := ⟨fuel - 1, by omega⟩
  have hsub : ∀ (nm : String) (st' : ResolverState),
      (handleQueryRecursive db m ⟨nm, QType.A⟩ st').isSome = true :=
    fun nm st' => hbound ⟨nm, QType.A⟩ st' m (by omega) rfl
  cases hg : st.cache.get (trimEndDot q.name) with
  | some cached =>
    by_cases h1 : cached.record_type = "A" ∧ q.qtype = QType.A
    · obtain ⟨h1a, h1b⟩ := h1
      cases hip : parseIpv4 cached.value with
      | none => simp [handleQueryRecursive, hg, h1a, h1b, hip]
      | some addr => simp [handleQueryRecursive, hg, h1a, h1b, hip]
    · by_cases h2 : cached.record_type = "CNAME" ∧ q.qtype = QType.CNAME
      · obtain ⟨h2a, h2b⟩ := h2
        cases hnm : nameParse cached.value with
        | none => simp [handleQueryRecursive, hg, h1, h2a, h2b, hnm]
        | some cname =>
          have hc := hsub cname st
          cases hres : handleQueryRecursive db m ⟨cname, QType.A⟩ st with
          | none => rw [hres] at hc; simp at hc
          | some pr =>
            obtain ⟨sub, st2⟩ := pr
            simp [handleQueryRecursive, hg, h1, h2a, h2b, hnm, hres]
      · simp [handleQueryRecursive, hg, h1, h2]
  | none =>
    cases hconn : db.conn with
    | connFail => simp [handleQueryRecursive, hg, hconn]
    | queryFail => simp [handleQueryRecursive, hg, hconn]
    | ok =>
      cases hrow : storeLookup db (trimEndDot q.name) with
      | none => simp [handleQueryRecursive, hg, hconn, hrow]
      | some p =>
        obtain ⟨rt, v⟩ := p
        by_cases h1 : rt = "A" ∧ q.qtype = QType.A
        · obtain ⟨h1a, h1b⟩ := h1
          subst h1a
          cases hip : parseIpv4 v with
          | none => simp [handleQueryRecursive, hg, hconn, hrow, h1b, hip]
          | some addr => simp [handleQueryRecursive, hg, hconn, hrow, h1b, hip]
        · by_cases h2 : rt = "CNAME"
          · subst h2
            cases hnm : nameParse v with
            | none => simp [handleQueryRecursive, hg, hconn, hrow, h1, hnm]
            | some cname =>
              have hc := hsub cname (persistCache { st with
                cache := st.cache.insert (trimEndDot q.name) ⟨"CNAME", v, 3600⟩ })
              cases hres : handleQueryRecursive db m ⟨cname, QType.A⟩
                  (persistCache { st with
                    cache := st.cache.insert (trimEndDot q.name) ⟨"CNAME", v, 3600⟩ }) with
              | none => rw [hres] at hc; simp at hc
              | some pr =>
                obtain ⟨sub, st2⟩ := pr
                simp [handleQueryRecursive, hg, hconn, hrow, h1, hnm, hres]
          · simp [handleQueryRecursive, hg, hconn, hrow, h1, h2]

/-- Full termination of handle_query, by the same argument: its one
alias chase hands the whole fuel to the recursive resolver. -/
theorem handleQuery_total (db : DbState) (fuel : Nat) (q : DnsQuery)
    (st : ResolverState) (hfuel : (storeAliasTargets db).card + 2 ≤ fuel) :
    (handleQuery db fuel q st).isSome = true := by
  have hsub : ∀ (nm : String) (st' : ResolverState),
      (handleQueryRecursive db fuel ⟨nm, QType.A⟩ st').isSome = true := by
    intro nm st'
    apply handleQueryRecursive_A_isSome db fuel ⟨nm, QType.A⟩ st' rfl
    dsimp only
    have h1 : ((storeAliasTargets db \ cacheKeys st'.cache).erase (trimEndDot nm)).card ≤
        (storeAliasTargets db).card :=
      Finset.card_le_card ((Finset.erase_subset _ _).trans Finset.sdiff_subset)
    omega
  cases hg : st.cache.get (trimEndDot q.name) with
  | some cached =>
    by_cases h1 : cached.record_type = "A" ∧ q.qtype = QType.A
    · obtain ⟨h1a, h1b⟩ := h1
      cases hip : parseIpv4 cached.value with
      | none => simp [handleQuery, hg, h1a, h1b, hip]
      | some addr => simp [handleQuery, hg, h1a, h1b, hip]
    · by_cases h2 : cached.record_type = "CNAME"
      · cases hnm : nameParse cached.value with
        | none => simp [handleQuery, hg, h1, h2, hnm]
        | some cname =>
          have hc := hsub cname st
          cases hres : handleQueryRecursive db fuel ⟨cname, QType.A⟩ st with
          | none => rw [hres] at hc; simp at hc
          | some pr =>
            obtain ⟨sub, st2⟩ := pr
            simp [handleQuery, hg, h1, h2, hnm, hres]
      · simp [handleQuery, hg, h1, h2]
  | none =>
    cases hconn : db.conn with
    | connFail => simp [handleQuery, hg, hconn]
    | queryFail => simp [handleQuery, hg, hconn]
    | ok =>
      cases hrow : storeLookup db (trimEndDot q.name) with
      | none => simp [handleQuery, hg, hconn, hrow]
      | some p =>
        obtain ⟨rt, v⟩ := p
        by_cases h1 : rt = "A" ∧ q.qtype = QType.A
        · obtain ⟨h1a, h1b⟩ := h1
          subst h1a
          cases hip : parseIpv4 v with
          | none => simp [handleQuery, hg, hconn, hrow, h1b, hip]
          | some addr => simp [handleQuery, hg, hconn, hrow, h1b, hip]
        · by_cases h2 : rt = "CNAME"
          · subst h2
            cases hnm : nameParse v with
            | none => simp [handleQuery, hg, hconn, hrow, h1, hnm]
            | some cname =>
              have hc := hsub cname (persistCache { st with
                cache := st.cache.insert (trimEndDot q.name) ⟨"CNAME", v, 3600⟩ })
              cases hres : handleQueryRecursive db fuel ⟨cname, QType.A⟩
                  (persistCache { st with
                    cache := st.cache.insert (trimEndDot q.name) ⟨"CNAME", v, 3600⟩ }) with
              | none => rw [hres] at hc; simp at hc
              | some pr =>
                obtain ⟨sub, st2⟩ := pr
                simp [handleQuery, hg, hconn, hrow, h1, hnm, hres]
          · simp [handleQuery, hg, hconn, hrow, h1, h2]

/-- Claim C4 counterexample: on the claim's own example states the
recursion terminates with explicit results — a name cached as an alias
of itself resolves to its single alias record, and the two-row store
cycle a to b to a resolves to the two alias records and stops when the
revisited name hits the cache entry written on the first visit. -/
theorem c4_counterexample :
    handleQueryRecursive ⟨DbConn.ok, []⟩ 3 ⟨"a", QType.CNAME⟩
        ⟨⟨[("a", ⟨"CNAME", "a", 60⟩)]⟩, none, 0⟩ =
      some ([⟨"a", 60, RData.cname "a"⟩], ⟨⟨[("a", ⟨"CNAME", "a", 60⟩)]⟩, none, 0⟩) ∧
    (handleQueryRecursive ⟨DbConn.ok, [⟨"a", "CNAME", "b"⟩, ⟨"b", "CNAME", "a"⟩]⟩ 9
        ⟨"a", QType.A⟩ ⟨⟨[]⟩, none, 0⟩).map (fun r => r.1) =
      some [⟨"a", 3600, RData.cname "b"⟩, ⟨"b", 3600, RData.cname "a"⟩] := ⟨rfl, rfl⟩

/-- Claim C4 (amended): the resolver performs no explicit cycle
detection, yet alias-chain resolution always terminates — every
store-driven alias hop write-through-inserts its own normalized name
into the cache before recursing, and a revisited name is a cache hit
whose ALIAS entry does not pair with the forced ADDRESS sub-query type,
so the chain stops.  Fuel exceeding the number of distinct store alias
targets is never exhausted, for every cache and store state, the
cyclic ones included. -/
theorem c4_alias_cycles_terminate (db : DbState) (fuel : Nat) (q : DnsQuery)
    (st : ResolverState) (hfuel : (storeAliasTargets db).card + 3 ≤ fuel) :
    (handleQueryRecursive db fuel q st).isSome = true ∧
    (handleQuery db fuel q st).isSome = true :=
  ⟨handleQueryRecursive_total db fuel q st hfuel,
   handleQuery_total db fuel q st (by omega)⟩

/-- Witness for the amended claim C4: the two-row alias cycle resolved
from a cold cache with fuel 9. -/
theorem c4_witness :
    (handleQueryRecursive ⟨DbConn.ok, [⟨"a", "CNAME", "b"⟩, ⟨"b", "CNAME", "a"⟩]⟩ 9
        ⟨"a", QType.A⟩ ⟨⟨[]⟩, none, 0⟩).isSome = true ∧
    (handleQuery ⟨DbConn.ok, [⟨"a", "CNAME", "b"⟩, ⟨"b", "CNAME", "a"⟩]⟩ 9
        ⟨"a", QType.A⟩ ⟨⟨[]⟩, none, 0⟩).isSome = true :=
  c4_alias_cycles_terminate ⟨DbConn.ok, [⟨"a", "CNAME", "b"⟩, ⟨"b", "CNAME", "a"⟩]⟩ 9
    ⟨"a", QType.A⟩ ⟨⟨[]⟩, none, 0⟩ (by decide)

end FusionDNS
